import Mathlib

/-!
Verification of the mailcraft email-assistant application (src/app.py).

The Python string operations used by the program (str.strip, str.splitlines,
str.startswith, str.replace with count 1, str.join, len) are embedded as
executable functions on lists of characters, and the program functions
(validate_inputs, normalize_bullets, build_prompt, build_rewrite_prompt,
parse_output, handle_generate, handle_rewrite) are translated on top of them.
The two UI handlers are modelled as pure functions from an environment
(the optional OPENAI_API_KEY value), a gateway oracle (prompt to reply or
failure), and the session state, to a result recording the new state, the
warnings and errors shown to the user, and the prompts sent to the gateway.
-/

namespace MailApp

/-- Python whitespace character class: the characters removed by str.strip
(code points 09-0D, 1C-1F, 20, 85, A0, 1680, 2000-200A, 2028, 2029, 202F,
205F, 3000). -/
def pyIsSpace (c : Char) : Bool :=
  (0x09 ≤ c.toNat && c.toNat ≤ 0x0D) || c.toNat == 0x20 ||
  (0x1C ≤ c.toNat && c.toNat ≤ 0x1F) || c.toNat == 0x85 || c.toNat == 0xA0 ||
  c.toNat == 0x1680 || (0x2000 ≤ c.toNat && c.toNat ≤ 0x200A) ||
  c.toNat == 0x2028 || c.toNat == 0x2029 || c.toNat == 0x202F ||
  c.toNat == 0x205F || c.toNat == 0x3000

/-- Python str.strip on a character list: drop whitespace from both ends. -/
def pyStripList (l : List Char) : List Char :=
  ((l.dropWhile pyIsSpace).reverse.dropWhile pyIsSpace).reverse

/-- Python str.strip. -/
def pyStrip (s : String) : String := ⟨pyStripList s.data⟩

/-- Line-boundary characters of Python str.splitlines
(0A, 0B, 0C, 0D, 1C, 1D, 1E, 85, 2028, 2029; 0D 0A counts as one boundary). -/
def isBreakChar (c : Char) : Bool :=
  c.toNat == 0x0A || c.toNat == 0x0B || c.toNat == 0x0C || c.toNat == 0x0D ||
  c.toNat == 0x1C || c.toNat == 0x1D || c.toNat == 0x1E || c.toNat == 0x85 ||
  c.toNat == 0x2028 || c.toNat == 0x2029

/-- Worker for Python str.splitlines: accumulates the current line (reversed)
and splits at each line boundary; a final unterminated segment is emitted
only when non-empty. -/
def splitlinesGo : List Char → List Char → List (List Char)
  | acc, [] => if acc = [] then [] else [acc.reverse]
  | acc, '\r' :: '\n' :: rest => acc.reverse :: splitlinesGo [] rest
  | acc, c :: rest =>
    if isBreakChar c then acc.reverse :: splitlinesGo [] rest
    else splitlinesGo (c :: acc) rest

/-- Python str.splitlines. -/
def pySplitlines (s : String) : List (List Char) := splitlinesGo [] s.data

/-- Python s.replace(pat, empty-string, 1): remove the first occurrence of
pat, if any. -/
def replaceFirstList (pat : List Char) : List Char → List Char
  | [] => []
  | c :: rest =>
    if pat.isPrefixOf (c :: rest) then (c :: rest).drop pat.length
    else c :: replaceFirstList pat rest

/-- Python newline-join of a list of lines. -/
def joinNL : List (List Char) → List Char
  | [] => []
  | [l] => l
  | l :: ls => l ++ '\n' :: joinNL ls

/-! ## app.py: validation, bullet normalization, prompt templates -/

/-- The three validation failure kinds of validate_inputs, in check order. -/
inductive ValidationError
  | Empty
  | TooShort
  | TooLong
deriving DecidableEq

/-- validate_inputs (src/app.py lines 31-41): warns Empty when the stripped
text is empty, TooShort when the raw length is below 10, TooLong when the
raw length exceeds 4000; returns none (success) otherwise. Note the source
checks len(required_info), the raw length, for both bounds. -/
def validate_inputs (required_info : String) : Option ValidationError :=
  if pyStrip required_info = "" then some .Empty
  else if required_info.length < 10 then some .TooShort
  else if required_info.length > 4000 then some .TooLong
  else none

/-- The bullet marker prepended by normalize_bullets. -/
def bulletMark : List Char := ['-', ' ']

/-- The per-line step of normalize_bullets: empty stripped lines are
dropped, lines already starting with the bullet marker are kept, all
others are prefixed with the marker. -/
def normalizeLine (l : List Char) : Option (List Char) :=
  if l = [] then none
  else if bulletMark.isPrefixOf l then some l
  else some (bulletMark ++ l)

/-- The stripped lines of a text, as computed by both normalize_bullets
and parse_output (src/app.py lines 45 and 106). -/
def strippedLines (text : String) : List (List Char) :=
  (pySplitlines text).map pyStripList

/-- normalize_bullets (src/app.py lines 44-54). -/
def normalize_bullets (text : String) : String :=
  ⟨joinNL ((strippedLines text).filterMap normalizeLine)⟩

/-- build_prompt (src/app.py lines 57-73); the signature field falls back
to a placeholder when empty, as the Python or-expression does. -/
def build_prompt (relationship purpose tone required_info signature : String) : String :=
  "あなたはビジネスメール作成アシスタントです。以下の条件に基づき日本語のメールを作成してください。必ず次の形式で出力してください。\n\n件名：...\n本文：\n...\n\n宛先の関係性: "
    ++ relationship ++ "\n目的: " ++ purpose ++ "\nトーン: " ++ tone
    ++ "\n必須情報（箇条書き）:\n" ++ required_info ++ "\n署名: "
    ++ (if signature = "" then "（なし）" else signature) ++ "\n"

/-- build_rewrite_prompt (src/app.py lines 87-100). -/
def build_rewrite_prompt (subject body instruction : String) : String :=
  "あなたはビジネスメールの編集アシスタントです。以下のメール本文を指示に従って書き換えてください。件名は基本維持し、明らかに不自然なら軽く整える程度にしてください。必ず次の形式で出力してください。\n\n件名：...\n本文：\n...\n\n指示: "
    ++ instruction ++ "\n件名: " ++ subject ++ "\n本文:\n" ++ body ++ "\n"

/-! ## app.py: parse_output -/

/-- The subject marker variants scanned by parse_output, in tuple order. -/
def subjMarkers : List (List Char) := ["件名：".data, "件名:".data]

/-- The body marker variants scanned by parse_output, in tuple order. -/
def bodyMarkers : List (List Char) := ["本文：".data, "本文:".data]

/-- line.startswith(subject_prefixes). -/
def isSubjLine (l : List Char) : Bool := subjMarkers.any fun p => p.isPrefixOf l

/-- line.startswith(body_prefixes). -/
def isBodyLine (l : List Char) : Bool := bodyMarkers.any fun p => p.isPrefixOf l

/-- The inner loop of parse_output over a subject-marker line: the first
matching marker variant is removed (first occurrence only) and the
remainder stripped; when no variant matches, the previous subject value
is kept. -/
def stepSubject (subj l : List Char) : List Char :=
  match subjMarkers.find? (fun p => p.isPrefixOf l) with
  | some p => pyStripList (replaceFirstList p l)
  | none => subj

/-- The scanning loop of parse_output (src/app.py lines 109-118): each
subject-marker line re-assigns the subject candidate and the loop
continues; the first other line that is a body-marker line sets the body
candidate to the stripped newline-join of all following lines and breaks. -/
def scanLines : List Char → List (List Char) → List Char × List Char
  | subj, [] => (subj, [])
  | subj, l :: rest =>
    if isSubjLine l then scanLines (stepSubject subj l) rest
    else if isBodyLine l then (subj, pyStripList (joinNL rest))
    else scanLines subj rest

/-- The fixed placeholder subject of parse_output. -/
def autoSubject : String := "（自動生成）"

/-- parse_output (src/app.py lines 103-124) at the character-list level:
scan the stripped lines, then resolve: an empty subject candidate yields
the placeholder subject with the whole stripped text as body; an empty
body candidate yields the subject with the whole stripped text as body;
otherwise both candidates are returned. -/
def parse_core (text : String) : List Char × List Char :=
  if (scanLines [] (strippedLines text)).1 = [] then
    (autoSubject.data, pyStripList text.data)
  else if (scanLines [] (strippedLines text)).2 = [] then
    ((scanLines [] (strippedLines text)).1, pyStripList text.data)
  else scanLines [] (strippedLines text)

/-- parse_output (src/app.py lines 103-124). -/
def parse_output (text : String) : String × String :=
  (⟨(parse_core text).1⟩, ⟨(parse_core text).2⟩)

/-! ## app.py: the generate and rewrite handlers -/

/-- The mutable Streamlit session fields used by the application
(src/app.py init_session_state). -/
structure SessionState where
  relationship : String
  purpose : String
  tone : String
  required_info : String
  signature : String
  subject : String
  body : String
deriving DecidableEq

/-- Observable outcome of one handler run: the resulting session state,
the warnings and errors surfaced to the user, and the prompts that were
sent to the model gateway. -/
structure ActionResult where
  state : SessionState
  warnings : List String
  errors : List String
  llmCalls : List String
deriving DecidableEq

/-- Python truthiness of os.getenv for the handlers credential check:
missing when the variable is unset or set to the empty string. -/
def credMissing : Option String → Bool
  | none => true
  | some s => s = ""

def keyWarning : String := "OPENAI_API_KEY が未設定です。.env を作成してください。"

def emptyBodyWarning : String := "本文が空のため再生成できません。"

def genFailError : String := "生成に失敗しました。入力を短くして再試行してください。"

def rewriteFailError : String := "再生成に失敗しました。入力を短くして再試行してください。"

/-- The warning text shown by validate_inputs for each failure kind. -/
def warningOf : ValidationError → String
  | .Empty => "必須情報を入力してください。"
  | .TooShort => "必須情報が短すぎます。10文字以上入力してください。"
  | .TooLong => "必須情報が長すぎます。4000文字以内にしてください。"

/-- The prompt built by generate_with_llm (src/app.py lines 127-142):
required info and signature are stripped and the required info is
bullet-normalized before templating. -/
def generatePromptOf (s : SessionState) : String :=
  build_prompt s.relationship s.purpose s.tone
    (normalize_bullets (pyStrip s.required_info)) (pyStrip s.signature)

/-- handle_generate (src/app.py lines 145-159), with the model gateway
abstracted as a prompt-to-reply oracle that may fail (the except branch
of the source catches any exception from the call). -/
def handle_generate (env : Option String) (llm : String → Except Unit String)
    (s : SessionState) : ActionResult :=
  if credMissing env then ⟨s, [keyWarning], [], []⟩
  else
    match validate_inputs s.required_info with
    | some e => ⟨s, [warningOf e], [], []⟩
    | none =>
      match llm (generatePromptOf s) with
      | .error _ => ⟨s, [], [genFailError], [generatePromptOf s]⟩
      | .ok out =>
        ⟨⟨s.relationship, s.purpose, s.tone, s.required_info, s.signature,
          (parse_output out).1, (parse_output out).2⟩, [], [], [generatePromptOf s]⟩

/-- handle_rewrite (src/app.py lines 162-181): aborts when the credential
is missing or the stripped body is empty; on gateway failure shows the
generic error; on success always overwrites the body, and overwrites the
subject only when the parsed subject is non-empty. -/
def handle_rewrite (env : Option String) (llm : String → Except Unit String)
    (instruction : String) (s : SessionState) : ActionResult :=
  if credMissing env then ⟨s, [keyWarning], [], []⟩
  else if pyStrip s.body = "" then ⟨s, [emptyBodyWarning], [], []⟩
  else
    match llm (build_rewrite_prompt (pyStrip s.subject) (pyStrip s.body) instruction) with
    | .error _ => ⟨s, [], [rewriteFailError],
        [build_rewrite_prompt (pyStrip s.subject) (pyStrip s.body) instruction]⟩
    | .ok out =>
      ⟨⟨s.relationship, s.purpose, s.tone, s.required_info, s.signature,
        (if (parse_output out).1 ≠ "" then (parse_output out).1 else s.subject),
        (parse_output out).2⟩, [], [],
        [build_rewrite_prompt (pyStrip s.subject) (pyStrip s.body) instruction]⟩

/-! ## Reference formulations used to state the parser claims -/

/-- Keep-condition for the line prefix scanned before the effective body
marker: a line stops the scan exactly when it is a body-marker line that
is not also a subject-marker line. -/
def keepLine (l : List Char) : Bool := isSubjLine l || !isBodyLine l

/-- Subject extraction from a subject-marker line, independent of the
scan state: remove the first matching marker variant and strip. -/
def extractSubj (l : List Char) : List Char :=
  match subjMarkers.find? (fun p => p.isPrefixOf l) with
  | some p => pyStripList (replaceFirstList p l)
  | none => []

/-- Reference subject candidate: the extraction from the last
subject-marker line among the lines before the first effective
body-marker line, with default d when there is none. -/
def subjCandSpec (d : List Char) (lines : List (List Char)) : List Char :=
  ((((lines.takeWhile keepLine).filter isSubjLine).map extractSubj).foldl
    (fun _ x => x) d)

/-- Reference body candidate: the stripped newline-join of the lines after
the first effective body-marker line, empty when there is none. -/
def bodyCandSpec : List (List Char) → List Char
  | [] => []
  | l :: rest =>
    if !isSubjLine l && isBodyLine l then pyStripList (joinNL rest)
    else bodyCandSpec rest

/-- A concrete session state used by the closed witness instances. -/
def demoState : SessionState :=
  ⟨"取引先", "依頼", "丁寧", "会議の日程を調整したい", "", "Meeting", "Hello there."⟩

/-! ## Shared lemmas -/

theorem mk_eq_empty_iff (l : List Char) : (⟨l⟩ : String) = "" ↔ l = [] := by
  constructor
  · intro h
    exact congrArg String.data h
  · intro h
    subst h
    rfl

theorem stepSubject_of_subjLine (d l : List Char) (hs : isSubjLine l = true) :
    stepSubject d l = extractSubj l := by
  unfold stepSubject extractSubj
  cases hf : subjMarkers.find? (fun p => p.isPrefixOf l) with
  | some p => rfl
  | none =>
    exfalso
    unfold isSubjLine at hs
    rcases List.any_eq_true.mp hs with ⟨p, hp, hpl⟩
    exact absurd hpl (by simpa using List.find?_eq_none.mp hf p hp)

/-- The scanning loop computes exactly the reference candidates: the
subject from the last subject-marker line before the first effective
body-marker line, and the body from the lines after that marker line. -/
theorem scan_eq (d : List Char) (lines : List (List Char)) :
    scanLines d lines = (subjCandSpec d lines, bodyCandSpec lines) := by
  induction lines generalizing d with
  | nil => rfl
  | cons l rest ih =>
    by_cases hs : isSubjLine l
    · have hk : keepLine l = true := by simp [keepLine, hs]
      have h1 : scanLines d (l :: rest) = scanLines (stepSubject d l) rest := by
        simp [scanLines, hs]
      rw [h1, stepSubject_of_subjLine d l hs, ih]
      have e1 : subjCandSpec d (l :: rest) = subjCandSpec (extractSubj l) rest := by
        unfold subjCandSpec
        rw [List.takeWhile_cons_of_pos hk, List.filter_cons_of_pos hs, List.map_cons,
          List.foldl_cons]
      have e2 : bodyCandSpec (l :: rest) = bodyCandSpec rest := by
        simp [bodyCandSpec, hs]
      rw [e1, e2]
    · by_cases hb : isBodyLine l
      · have h1 : scanLines d (l :: rest) = (d, pyStripList (joinNL rest)) := by
          simp [scanLines, hs, hb]
        rw [h1]
        have e1 : subjCandSpec d (l :: rest) = d := by
          unfold subjCandSpec
          rw [List.takeWhile_cons_of_neg (by simp [keepLine, hs, hb])]
          rfl
        have e2 : bodyCandSpec (l :: rest) = pyStripList (joinNL rest) := by
          simp [bodyCandSpec, hs, hb]
        rw [e1, e2]
      · have hk : keepLine l = true := by simp [keepLine, hs, hb]
        have h1 : scanLines d (l :: rest) = scanLines d rest := by
          simp [scanLines, hs, hb]
        rw [h1, ih]
        have e1 : subjCandSpec d (l :: rest) = subjCandSpec d rest := by
          unfold subjCandSpec
          rw [List.takeWhile_cons_of_pos hk, List.filter_cons_of_neg (by simp [hs])]
        have e2 : bodyCandSpec (l :: rest) = bodyCandSpec rest := by
          simp [bodyCandSpec, hs, hb]
        rw [e1, e2]

theorem parse_core_fst_ne (text : String) : (parse_core text).1 ≠ [] := by
  unfold parse_core
  split_ifs with h1 h2
  · show autoSubject.data ≠ []
    decide
  · exact h1
  · exact h1

theorem parse_output_fst_ne (text : String) : (parse_output text).1 ≠ "" := by
  unfold parse_output
  intro h
  exact parse_core_fst_ne text ((mk_eq_empty_iff _).mp h)

/-! ## Lemmas about splitlines, strip and normalize, used for claim C7 -/

theorem sl_nil (acc : List Char) :
    splitlinesGo acc [] = if acc = [] then [] else [acc.reverse] := rfl

theorem sl_newline (acc rest : List Char) :
    splitlinesGo acc ('\n' :: rest) = acc.reverse :: splitlinesGo [] rest := rfl

theorem sl_crlf (acc rest : List Char) :
    splitlinesGo acc ('\r' :: '\n' :: rest) = acc.reverse :: splitlinesGo [] rest := rfl

theorem sl_cons_nonbreak (acc : List Char) (c : Char) (rest : List Char)
    (hc : isBreakChar c = false) :
    splitlinesGo acc (c :: rest) = splitlinesGo (c :: acc) rest := by
  have hcr : c ≠ '\r' := by
    intro h
    subst h
    exact absurd hc (by decide)
  cases rest with
  | nil => simp [splitlinesGo, hc]
  | cons d rest2 =>
    rw [splitlinesGo.eq_def]
    split
    · simp_all
    · simp_all
    · next a1 a2 a3 cc rr hno heq =>
      injection heq with h1 h2
      subst h1
      subst h2
      simp [hc]

theorem sl_cons_break (acc : List Char) (c : Char) (rest : List Char)
    (hbr : isBreakChar c = true)
    (hno : ∀ r : List Char, c = '\r' → rest = '\n' :: r → False) :
    splitlinesGo acc (c :: rest) = acc.reverse :: splitlinesGo [] rest := by
  cases rest with
  | nil =>
    simp [splitlinesGo, hbr]
  | cons d rest2 =>
    rw [splitlinesGo.eq_def]
    split
    · simp_all
    · next a1 a2 rr heq =>
      injection heq with h1 h2
      exact (hno rr h1 h2).elim
    · next a1 a2 a3 cc rr hno2 heq =>
      injection heq with h1 h2
      subst h1
      subst h2
      simp [hbr]

/-- Every line produced by the splitlines worker is free of line-boundary
characters, provided the accumulator is. -/
theorem splitlines_break_free :
    ∀ (acc input : List Char), (∀ c ∈ acc, isBreakChar c = false) →
      ∀ l ∈ splitlinesGo acc input, ∀ c ∈ l, isBreakChar c = false := by
  intro acc input
  induction acc, input using splitlinesGo.induct with
  | case1 =>
    intro _hacc l hl
    simp [splitlinesGo] at hl
  | case2 acc hne =>
    intro hacc l hl c hcl
    simp only [sl_nil, if_neg hne, List.mem_singleton] at hl
    subst hl
    exact hacc c (List.mem_reverse.mp hcl)
  | case3 acc rest ih =>
    intro hacc l hl c hcl
    rw [sl_crlf] at hl
    rcases List.mem_cons.mp hl with h | h
    · subst h
      exact hacc c (List.mem_reverse.mp hcl)
    · exact ih (by simp) l h c hcl
  | case4 acc c0 rest hno hbr ih =>
    intro hacc l hl c hcl
    rw [sl_cons_break acc c0 rest hbr (fun r h1 h2 => hno r h1 h2)] at hl
    rcases List.mem_cons.mp hl with h | h
    · subst h
      exact hacc c (List.mem_reverse.mp hcl)
    · exact ih (by simp) l h c hcl
  | case5 acc c0 rest hno hbr ih =>
    intro hacc l hl c hcl
    rw [sl_cons_nonbreak acc c0 rest (Bool.not_eq_true _ ▸ hbr)] at hl
    refine ih ?_ l hl c hcl
    intro e he
    rcases List.mem_cons.mp he with h | h
    · subst h
      exact Bool.not_eq_true _ ▸ hbr
    · exact hacc e h

/-- Scanning a break-free block moves it wholesale into the accumulator. -/
theorem splitlinesGo_append (l : List Char) :
    ∀ (acc rest : List Char), (∀ c ∈ l, isBreakChar c = false) →
      splitlinesGo acc (l ++ rest) = splitlinesGo (l.reverse ++ acc) rest := by
  induction l with
  | nil =>
    intro acc rest _h
    simp
  | cons c t ih =>
    intro acc rest h
    have hc : isBreakChar c = false := h c (List.mem_cons_self c t)
    rw [List.cons_append, sl_cons_nonbreak acc c (t ++ rest) hc,
      ih (c :: acc) rest (fun e he => h e (List.mem_cons_of_mem c he))]
    simp

/-- splitlines is a left inverse of the newline-join on lists of non-empty
break-free lines. -/
theorem splitlines_joinNL :
    ∀ N : List (List Char),
      (∀ l ∈ N, l ≠ [] ∧ ∀ c ∈ l, isBreakChar c = false) →
      splitlinesGo [] (joinNL N) = N := by
  intro N
  induction N with
  | nil =>
    intro _h
    rfl
  | cons l ls ih =>
    intro h
    obtain ⟨hne, hbf⟩ := h l (List.mem_cons_self l ls)
    cases ls with
    | nil =>
      have h1 : joinNL [l] = l ++ [] := by simp [joinNL]
      rw [h1, splitlinesGo_append l [] [] hbf, List.append_nil, sl_nil]
      have h2 : l.reverse ≠ [] := by simpa using hne
      simp [h2]
    | cons l2 ls2 =>
      have h1 : joinNL (l :: l2 :: ls2) = l ++ '\n' :: joinNL (l2 :: ls2) := rfl
      rw [h1, splitlinesGo_append l [] ('\n' :: joinNL (l2 :: ls2)) hbf, List.append_nil,
        sl_newline, List.reverse_reverse]
      exact congrArg _ (ih (fun e he => h e (List.mem_cons_of_mem l he)))

theorem head?_dropWhile_false {α : Type} (p : α → Bool) :
    ∀ (l : List α) (c : α), (l.dropWhile p).head? = some c → p c = false := by
  intro l
  induction l with
  | nil =>
    intro c h
    simp [List.dropWhile] at h
  | cons a t ih =>
    intro c h
    by_cases hp : p a
    · rw [List.dropWhile_cons, if_pos hp] at h
      exact ih c h
    · rw [List.dropWhile_cons, if_neg hp] at h
      have : a = c := by simpa using h
      subst this
      exact Bool.not_eq_true _ ▸ hp

theorem getLast?_dropWhile {α : Type} (p : α → Bool) :
    ∀ l : List α, l.dropWhile p ≠ [] → (l.dropWhile p).getLast? = l.getLast? := by
  intro l
  induction l with
  | nil =>
    intro h
    simp [List.dropWhile] at h
  | cons a t ih =>
    intro h
    by_cases hp : p a
    · rw [List.dropWhile_cons, if_pos hp] at h ⊢
      have ht : t ≠ [] := by
        intro h0
        subst h0
        simp [List.dropWhile] at h
      rcases List.exists_cons_of_ne_nil ht with ⟨b, t2, rfl⟩
      rw [ih h, List.getLast?_cons_cons]
    · rw [List.dropWhile_cons, if_neg hp]

theorem dropWhile_eq_self {α : Type} (p : α → Bool) (l : List α)
    (h : ∀ c, l.head? = some c → p c = false) : l.dropWhile p = l := by
  cases l with
  | nil => rfl
  | cons a t =>
    rw [List.dropWhile_cons, if_neg]
    simp [h a rfl]

theorem strip_head_not_space (l : List Char) (c : Char)
    (h : (pyStripList l).head? = some c) : pyIsSpace c = false := by
  unfold pyStripList at h
  rw [List.head?_reverse] at h
  have hne : (l.dropWhile pyIsSpace).reverse.dropWhile pyIsSpace ≠ [] := by
    intro h0
    rw [h0] at h
    simp at h
  rw [getLast?_dropWhile pyIsSpace _ hne, List.getLast?_reverse] at h
  exact head?_dropWhile_false pyIsSpace l c h

theorem strip_last_not_space (l : List Char) (c : Char)
    (h : (pyStripList l).getLast? = some c) : pyIsSpace c = false := by
  unfold pyStripList at h
  rw [List.getLast?_reverse] at h
  exact head?_dropWhile_false pyIsSpace _ c h

theorem strip_fixed_of_ends (l : List Char)
    (hh : ∀ c, l.head? = some c → pyIsSpace c = false)
    (hl : ∀ c, l.getLast? = some c → pyIsSpace c = false) : pyStripList l = l := by
  unfold pyStripList
  rw [dropWhile_eq_self pyIsSpace l hh,
    dropWhile_eq_self pyIsSpace l.reverse
      (fun c hc => hl c (by rwa [List.head?_reverse] at hc)),
    List.reverse_reverse]

theorem strip_idem (l : List Char) : pyStripList (pyStripList l) = pyStripList l :=
  strip_fixed_of_ends _ (fun c hc => strip_head_not_space l c hc)
    (fun c hc => strip_last_not_space l c hc)

theorem mem_strip (l : List Char) (c : Char) (h : c ∈ pyStripList l) : c ∈ l := by
  unfold pyStripList at h
  rw [List.mem_reverse] at h
  have h2 := (List.dropWhile_sublist _).subset h
  rw [List.mem_reverse] at h2
  exact (List.dropWhile_sublist _).subset h2

theorem isPrefixOf_append_self (p q : List Char) : p.isPrefixOf (p ++ q) = true := by
  induction p with
  | nil => simp [List.isPrefixOf]
  | cons a t ih => simp [List.isPrefixOf, ih]

theorem filterMap_id_of {α : Type} (f : α → Option α) :
    ∀ L : List α, (∀ a ∈ L, f a = some a) → L.filterMap f = L := by
  intro L
  induction L with
  | nil =>
    intro _h
    rfl
  | cons a t ih =>
    intro h
    rw [List.filterMap_cons, h a (List.mem_cons_self a t),
      ih (fun e he => h e (List.mem_cons_of_mem a he))]

/-- Each line emitted by normalize_bullets is non-empty, carries the
bullet marker, is strip-invariant, and contains no line boundary. -/
theorem norm_line_props (x : String) (l : List Char)
    (hl : l ∈ (strippedLines x).filterMap normalizeLine) :
    l ≠ [] ∧ bulletMark.isPrefixOf l = true ∧ pyStripList l = l ∧
      ∀ c ∈ l, isBreakChar c = false := by
  rcases List.mem_filterMap.mp hl with ⟨a, ha, he⟩
  rcases List.mem_map.mp ha with ⟨b, hb, rfl⟩
  have hbf : ∀ c ∈ pyStripList b, isBreakChar c = false := by
    intro c hc
    exact splitlines_break_free [] x.data (by simp) b hb c (mem_strip b c hc)
  unfold normalizeLine at he
  by_cases h0 : pyStripList b = []
  · rw [if_pos h0] at he
    exact absurd he (by simp)
  · rw [if_neg h0] at he
    by_cases h1 : bulletMark.isPrefixOf (pyStripList b)
    · rw [if_pos h1] at he
      have hla : l = pyStripList b := by
        injection he with h2
        exact h2.symm
      subst hla
      exact ⟨h0, h1, strip_idem b, hbf⟩
    · rw [if_neg h1] at he
      have hla : l = bulletMark ++ pyStripList b := by
        injection he with h2
        exact h2.symm
      subst hla
      refine ⟨by simp [bulletMark], isPrefixOf_append_self _ _, ?_, ?_⟩
      · refine strip_fixed_of_ends _ ?_ ?_
        · intro c hc
          simp [bulletMark] at hc
          subst hc
          decide
        · intro c hc
          rw [List.getLast?_append_of_ne_nil _ h0] at hc
          exact strip_last_not_space b c hc
      · intro c hc
        rcases List.mem_append.mp hc with h | h
        · rcases (by simpa [bulletMark] using h : c = '-' ∨ c = ' ') with rfl | rfl
          · decide
          · decide
        · exact hbf c h

/-! ## Claim theorems -/

/-- C7: normalize_bullets is idempotent, and every line of its output is
non-empty and starts with the bullet marker. -/
theorem c7_normalize_idempotent_bulleted (x : String) :
    normalize_bullets (normalize_bullets x) = normalize_bullets x ∧
    ((pySplitlines (normalize_bullets x)).all
      fun l => !l.isEmpty && bulletMark.isPrefixOf l) = true := by
  have hprops := norm_line_props x
  have hkey : pySplitlines (normalize_bullets x)
      = (strippedLines x).filterMap normalizeLine := by
    show splitlinesGo [] (normalize_bullets x).data = _
    have hdata : (normalize_bullets x).data
        = joinNL ((strippedLines x).filterMap normalizeLine) := rfl
    rw [hdata]
    exact splitlines_joinNL _ (fun l hl => ⟨(hprops l hl).1, (hprops l hl).2.2.2⟩)
  constructor
  · have h2 : strippedLines (normalize_bullets x)
        = (strippedLines x).filterMap normalizeLine := by
      unfold strippedLines
      rw [hkey, List.map_congr_left (fun a ha => (hprops a ha).2.2.1)]
      simp [strippedLines]
    have h3 : ∀ a ∈ (strippedLines x).filterMap normalizeLine,
        normalizeLine a = some a := by
      intro a ha
      obtain ⟨h0, h1, _, _⟩ := hprops a ha
      unfold normalizeLine
      rw [if_neg h0, if_pos h1]
    calc normalize_bullets (normalize_bullets x)
        = ⟨joinNL ((strippedLines (normalize_bullets x)).filterMap normalizeLine)⟩ := rfl
      _ = ⟨joinNL ((strippedLines x).filterMap normalizeLine)⟩ := by
          rw [h2, filterMap_id_of normalizeLine _ h3]
      _ = normalize_bullets x := rfl
  · rw [hkey, List.all_eq_true]
    intro l hl
    obtain ⟨h0, h1, _, _⟩ := hprops l hl
    simp [h1, h0]

/-- C1, counterexample: with current subject Meeting and a gateway reply
whose parse yields an empty subject candidate, a successful rewrite does
NOT keep the old subject: the parser substitutes the fixed placeholder,
which is non-empty, so it overwrites the stored subject. -/
theorem c1_counterexample :
    (scanLines [] (strippedLines "本文：\nX")).1 = [] ∧
    demoState.subject = "Meeting" ∧
    (handle_rewrite (some "k") (fun _ => Except.ok "本文：\nX") "短く" demoState).state.subject
      = "（自動生成）" ∧
    ¬((handle_rewrite (some "k") (fun _ => Except.ok "本文：\nX") "短く" demoState).state.subject
      = "Meeting") := by
  decide

/-- C1, amended: on a successful rewrite whose reply parses to an empty
subject candidate, the stored subject is overwritten with the fixed
placeholder (not kept), while the stored body is overwritten with the
parsed body. -/
theorem c1_amended (env : Option String) (llm : String → Except Unit String)
    (instruction : String) (s : SessionState) (out : String)
    (hc : credMissing env = false) (hb : pyStrip s.body ≠ "")
    (hllm : llm (build_rewrite_prompt (pyStrip s.subject) (pyStrip s.body) instruction)
      = Except.ok out)
    (hscan : (scanLines [] (strippedLines out)).1 = []) :
    (handle_rewrite env llm instruction s).state.subject = autoSubject ∧
    (handle_rewrite env llm instruction s).state.body = (parse_output out).2 := by
  have h1 : (parse_output out).1 = autoSubject := by
    unfold parse_output parse_core
    simp [hscan]
  have h2 : autoSubject ≠ "" := by decide
  unfold handle_rewrite
  constructor
  · simp [hc, hb, hllm, h1, h2]
  · simp [hc, hb, hllm]

/-- C1, witness: the amended statement at a concrete state and reply. -/
theorem c1_witness :
    (handle_rewrite (some "k") (fun _ => Except.ok "本文：\nX") "短く" demoState).state.subject
      = autoSubject ∧
    (handle_rewrite (some "k") (fun _ => Except.ok "本文：\nX") "短く" demoState).state.body
      = (parse_output "本文：\nX").2 :=
  c1_amended (some "k") (fun _ => Except.ok "本文：\nX") "短く" demoState "本文：\nX"
    (by decide) (by decide) rfl (by decide)

/-- C2, counterexample: an input of raw length 10 whose trimmed length is
1 passes validation, although the claim requires a TooShort failure for
trimmed lengths between 1 and 9 (the source checks the raw length). -/
theorem c2_counterexample :
    validate_inputs "a         " = none ∧
    pyStrip "a         " = "a" ∧ ("a         " : String).length = 10 := by
  decide

/-- C2, amended: validation succeeds iff the trimmed text is non-empty and
the RAW length is in [10, 4000]; Empty iff the trimmed text is empty;
TooShort iff the trimmed text is non-empty and the raw length is below 10;
TooLong iff the trimmed text is non-empty and the raw length exceeds 4000.
The two numeric bounds are checked on the raw, untrimmed length. -/
theorem c2_amended (s : String) :
    (validate_inputs s = some ValidationError.Empty ↔ pyStrip s = "") ∧
    (validate_inputs s = some ValidationError.TooShort ↔ pyStrip s ≠ "" ∧ s.length < 10) ∧
    (validate_inputs s = some ValidationError.TooLong ↔ pyStrip s ≠ "" ∧ 4000 < s.length) ∧
    (validate_inputs s = none ↔ pyStrip s ≠ "" ∧ 10 ≤ s.length ∧ s.length ≤ 4000) := by
  unfold validate_inputs
  split_ifs with h1 h2 h3 <;> refine ⟨?_, ?_, ?_, ?_⟩ <;> simp_all
  all_goals omega

/-- C3, counterexample: when two subject-marker lines occur, the parsed
subject comes from the second one (each marker line re-assigns the
candidate), not from the first as the claim states. -/
theorem c3_counterexample :
    (parse_output "件名: A\n件名: B").1 = "B" ∧
    ¬((parse_output "件名: A\n件名: B").1 = "A") := by
  decide

/-- C3, amended: the subject candidate is the extraction from the LAST
subject-marker line among the lines before the first effective body-marker
line (default empty), and parse returns that candidate when it is
non-empty, the fixed placeholder otherwise. -/
theorem c3_amended (text : String) :
    (scanLines [] (strippedLines text)).1 = subjCandSpec [] (strippedLines text) ∧
    (parse_output text).1 =
      (if (scanLines [] (strippedLines text)).1 = [] then autoSubject
       else (⟨(scanLines [] (strippedLines text)).1⟩ : String)) := by
  constructor
  · rw [scan_eq]
  · unfold parse_output parse_core
    split_ifs with h1 h2
    · rfl
    · rfl
    · rfl

/-- C4, counterexample: on an all-whitespace, non-empty raw input the
parser returns an empty body (the fallback is the trimmed raw text). -/
theorem c4_counterexample :
    parse_output " " = ("（自動生成）", "") ∧ ¬((" " : String) = "") := by
  decide

/-- C4, amended: parse is total (it is a Lean function on all strings) and
the returned body is non-empty whenever the TRIMMED raw input is
non-empty. -/
theorem c4_amended (text : String) (h : pyStrip text ≠ "") : (parse_output text).2 ≠ "" := by
  have hl : pyStripList text.data ≠ [] := by
    intro he
    exact h ((mk_eq_empty_iff _).mpr he)
  unfold parse_output parse_core
  split_ifs with h1 h2
  · exact fun hc => hl ((mk_eq_empty_iff _).mp hc)
  · exact fun hc => hl ((mk_eq_empty_iff _).mp hc)
  · exact fun hc => h2 ((mk_eq_empty_iff _).mp hc)

/-- C4, witness: the amended statement at a concrete input. -/
theorem c4_witness : pyStrip "hello there" ≠ "" ∧ (parse_output "hello there").2 ≠ "" :=
  ⟨by decide, c4_amended "hello there" (by decide)⟩

/-- C5: the resolution policy of parse, stated against independently
defined reference candidates (an empty candidate meaning none was found):
empty subject candidate yields the placeholder and the whole trimmed text
as body, ignoring any body candidate; a subject with an empty body
candidate yields the subject and the whole trimmed text; otherwise both
candidates; plus the marker-free fallback instance. -/
theorem c5_resolution_policy (text : String) :
    parse_core text =
      (if subjCandSpec [] (strippedLines text) = [] then
        (autoSubject.data, pyStripList text.data)
       else if bodyCandSpec (strippedLines text) = [] then
         (subjCandSpec [] (strippedLines text), pyStripList text.data)
       else (subjCandSpec [] (strippedLines text), bodyCandSpec (strippedLines text))) ∧
    parse_output "just some text" = ("（自動生成）", "just some text") := by
  constructor
  · unfold parse_core
    rw [scan_eq]
  · decide

/-- C6, counterexample: the claim uses the English marker literals, but the
source scans for the Japanese markers, so on the literal input of the
claim the parser falls back to the placeholder and whole-text body. -/
theorem c6_counterexample :
    parse_output "Subject: Hello\nBody:\nLine one\nLine two"
      = ("（自動生成）", "Subject: Hello\nBody:\nLine one\nLine two") ∧
    ¬((parse_output "Subject: Hello\nBody:\nLine one\nLine two").1 = "Hello") := by
  decide

/-- C6, amended: the round-trip scenario with the markers the source
actually scans for (the Japanese literals rendered as Subject:/Body:
in the specification). -/
theorem c6_amended :
    parse_output "件名: Hello\n本文:\nLine one\nLine two"
      = ("Hello", "Line one\nLine two") := by
  decide

/-- C8: with no credential configured, both handlers warn and return the
state unchanged without invoking the gateway. -/
theorem c8_missing_credential (llm : String → Except Unit String) (instruction : String)
    (s : SessionState) :
    handle_generate none llm s = ⟨s, [keyWarning], [], []⟩ ∧
    handle_rewrite none llm instruction s = ⟨s, [keyWarning], [], []⟩ :=
  ⟨rfl, rfl⟩

/-- C9: on every failure path of either handler (any run that surfaces a
warning or an error), the session state is returned exactly as it was:
there are no partial writes. -/
theorem c9_no_partial_writes (env : Option String) (llm : String → Except Unit String)
    (instruction : String) (s : SessionState) :
    ((handle_generate env llm s).warnings ≠ [] ∨ (handle_generate env llm s).errors ≠ [] →
      (handle_generate env llm s).state = s) ∧
    ((handle_rewrite env llm instruction s).warnings ≠ [] ∨
        (handle_rewrite env llm instruction s).errors ≠ [] →
      (handle_rewrite env llm instruction s).state = s) := by
  constructor
  · unfold handle_generate
    by_cases hc : credMissing env
    · intro _h
      simp [hc]
    · simp only [Bool.not_eq_true] at hc
      cases hv : validate_inputs s.required_info with
      | some e =>
        intro _h
        simp [hc, hv]
      | none =>
        cases hl : llm (generatePromptOf s) with
        | error e =>
          intro _h
          simp [hc, hv, hl]
        | ok out =>
          intro h
          exfalso
          simp [hc, hv, hl] at h
  · unfold handle_rewrite
    by_cases hc : credMissing env
    · intro _h
      simp [hc]
    · simp only [Bool.not_eq_true] at hc
      by_cases hb : pyStrip s.body = ""
      · intro _h
        simp [hc, hb]
      · cases hl : llm (build_rewrite_prompt (pyStrip s.subject) (pyStrip s.body) instruction) with
        | error e =>
          intro _h
          simp [hc, hb, hl]
        | ok out =>
          intro h
          exfalso
          simp [hc, hb, hl] at h

/-- C9, witness: the missing-credential failure path at a concrete state
leaves the state unchanged on both handlers. -/
theorem c9_witness :
    (handle_generate none (fun _ => Except.error ()) demoState).state = demoState ∧
    (handle_rewrite none (fun _ => Except.error ()) "短く" demoState).state = demoState :=
  ⟨(c9_no_partial_writes none (fun _ => Except.error ()) "短く" demoState).1 (Or.inl (by decide)),
   (c9_no_partial_writes none (fun _ => Except.error ()) "短く" demoState).2 (Or.inl (by decide))⟩

/-- C10: the subject returned by parse is never empty (either extracted
non-empty text or the fixed placeholder), so every successful rewrite
overwrites the stored subject with the parsed subject and the guard that
would keep the old subject can never trigger. -/
theorem c10_subject_always_overwritten :
    (∀ text : String, (parse_output text).1 ≠ "") ∧
    ∀ (env : Option String) (llm : String → Except Unit String) (instruction : String)
      (s : SessionState) (out : String),
      credMissing env = false → pyStrip s.body ≠ "" →
      llm (build_rewrite_prompt (pyStrip s.subject) (pyStrip s.body) instruction)
        = Except.ok out →
      (handle_rewrite env llm instruction s).state.subject = (parse_output out).1 := by
  constructor
  · exact parse_output_fst_ne
  · intro env llm instruction s out hc hb hllm
    unfold handle_rewrite
    simp [hc, hb, hllm, parse_output_fst_ne out]

/-- C10, witness: a concrete successful rewrite whose resulting subject is
the parsed subject. -/
theorem c10_witness :
    (parse_output "").1 ≠ "" ∧
    (handle_rewrite (some "k") (fun _ => Except.ok "件名: A") "短く" demoState).state.subject
      = (parse_output "件名: A").1 :=
  ⟨c10_subject_always_overwritten.1 "",
   c10_subject_always_overwritten.2 (some "k") (fun _ => Except.ok "件名: A") "短く" demoState
     "件名: A" (by decide) (by decide) rfl⟩

end MailApp
